import Mathlib

/-!
Verification of the stock-metadata-tagger analysis pipeline.

Shallow embedding of the core components described in the spec:
* the result schema validator/repairer (`processResult`,
  src/backend/src/lib/validation/resultSchema.ts),
* the retry policy (`withRetryTrace`, src/unnamed/part_006 `withRetry`),
* the two protocol adapters' attempt bodies (`openaiAttempt` from
  src/backend/src/lib/modelEndpoint/openaiEndpoint.ts, `customAttempt`
  from src/unnamed/part_005),
* the orchestrator's per-image loop and preset-aware validation
  (`processImagesAsync`, `validateMetadata`, src/backend/src/routes/analyze.ts).

JSON-decodable JavaScript values are modelled by `JValue`.  JSON numbers are
modelled as `Int` (no claim under consideration involves fractional numbers).
String lengths count Unicode code points where JavaScript counts UTF-16 code
units; the two agree on all concrete inputs used here and on the ASCII
strings the spec's scenarios mention.
-/

/-- A JSON-decodable JavaScript value (output of `JSON.parse` /
`response.json()`).  `undefined` is represented by `Option.none` at use
sites (absent object fields). -/
inductive JValue where
  | null : JValue
  | bool : Bool → JValue
  | num : Int → JValue
  | str : String → JValue
  | arr : List JValue → JValue
  | obj : List (String × JValue) → JValue

/-- JavaScript truthiness of a JSON value (`NaN` is not representable in the
model; `undefined` is handled by `Option` at use sites). -/
def jsTruthy : JValue → Bool
  | .null => false
  | .bool b => b
  | .num n => n != 0
  | .str s => s != ""
  | .arr _ => true
  | .obj _ => true

/-- First field with the given key.  Objects produced by `JSON.parse` have
unique keys (later duplicates overwrite earlier ones during parsing), so
first-match lookup is faithful. -/
def lookupField : List (String × JValue) → String → Option JValue
  | [], _ => none
  | (k, v) :: rest, key => if k = key then some v else lookupField rest key

/-- Property access `v.key` (equivalently `v?.key` on a non-nullish `v`):
`undefined` (`none`) unless `v` is an object with the field.  Reading a named
property off a primitive or an array yields `undefined` in JavaScript for the
property names used by this codebase. -/
def jsGet (v : JValue) (key : String) : Option JValue :=
  match v with
  | .obj fields => lookupField fields key
  | _ => none

/-- `a || b` where `a` may be `undefined`: the left operand if it is defined
and truthy, otherwise the right operand. -/
def jsOrElse (a : Option JValue) (b : JValue) : JValue :=
  match a with
  | some v => if jsTruthy v then v else b
  | none => b

/-- `SameValueZero` equality as used by a JavaScript `Set`, restricted to
values reachable from `JSON.parse` output: primitives compare by value;
objects and arrays compare by reference, and since parsed JSON is a tree in
which every composite node is a fresh object, two composite entries of the
same array are never equal. -/
def jsPrimEq : JValue → JValue → Bool
  | .null, .null => true
  | .bool a, .bool b => a == b
  | .num a, .num b => a == b
  | .str a, .str b => a == b
  | _, _ => false

/-- `Array.from(new Set(xs))`: keep the first occurrence of each value, in
insertion order (`SameValueZero` comparison, see `jsPrimEq`).  Stated in the
structurally recursive form "head, then the de-duplicated tail with later
copies of the head removed", which computes the same list as the insertion
loop of a `Set`. -/
def jsSetDedup : List JValue → List JValue
  | [] => []
  | x :: rest => x :: (jsSetDedup rest).filter (fun y => !(jsPrimEq x y))

/-- `Array.from(new Set(xs))` for an array of strings. -/
def setDedupStr : List String → List String
  | [] => []
  | x :: rest => x :: (setDedupStr rest).filter (fun y => y != x)

/-- String-conversion of a value as performed by a template literal or
`String(v)`.  Array elements are joined with commas, `null` elements
becoming empty; plain objects print as `[object Object]`. -/
def jsToString : JValue → String
  | .null => "null"
  | .bool b => if b then "true" else "false"
  | .num n => toString n
  | .str s => s
  | .arr xs => String.intercalate "," (jsToStringElems xs)
  | .obj _ => "[object Object]"
where
  /-- Elements of an array under `Array.prototype.toString`: `null` renders
  as the empty string. -/
  jsToStringElems : List JValue → List String
    | [] => []
    | .null :: rest => "" :: jsToStringElems rest
    | x :: rest => jsToString x :: jsToStringElems rest

/-- The guard `v.length >= n`: `.length` is the element count for arrays and
the character count for strings, and `undefined` for other values
(`undefined >= n` is false). -/
def jsLenGE (v : JValue) (n : Nat) : Bool :=
  match v with
  | .str s => n ≤ s.length
  | .arr xs => n ≤ xs.length
  | _ => false

/-- `String.prototype.trim`: remove leading and trailing whitespace. -/
def jsTrim (s : String) : String :=
  String.mk (((s.toList.dropWhile Char.isWhitespace).reverse.dropWhile
    Char.isWhitespace).reverse)

/-- `String.prototype.substring(0, n)`. -/
def strTake (s : String) (n : Nat) : String :=
  String.mk (s.toList.take n)

/-- `String.prototype.toLowerCase` (ASCII case folding, which covers every
keyword this codebase compares). -/
def jsToLower (s : String) : String :=
  String.mk (s.toList.map Char.toLower)

/-! ## Result schema validator/repairer
(src/backend/src/lib/validation/resultSchema.ts) -/

/-- A payload accepted by the strict Zod schema `ResultSchema`. -/
structure ValidatedResult where
  alt_text : String
  title : String
  keywords : List String

/-- The fields of an array that is accepted by `z.array(z.string())`:
`some` of the strings when every element is a string. -/
def allStrings : List JValue → Option (List String)
  | [] => some []
  | .str s :: rest => (allStrings rest).map (fun ss => s :: ss)
  | _ :: _ => none

/-- `ResultSchema.parse`: a Zod object schema accepts exactly the objects
whose `alt_text` is a string of 5 to 160 characters, whose `title` is a
string of at least 5 characters and whose `keywords` is an array of 5 to 50
strings (unknown keys are stripped).  `none` models the thrown `ZodError`. -/
def zodParse (v : JValue) : Option ValidatedResult :=
  match v with
  | .obj fields =>
    match lookupField fields "alt_text", lookupField fields "title",
        lookupField fields "keywords" with
    | some (.str a), some (.str t), some (.arr ks) =>
      match allStrings ks with
      | some ss =>
        if 5 ≤ a.length ∧ a.length ≤ 160 ∧ 5 ≤ t.length ∧
            5 ≤ ss.length ∧ ss.length ≤ 50 then
          some { alt_text := a, title := t, keywords := ss }
        else none
      | none => none
    | _, _, _ => none
  | _ => none

/-- The result returned by `processResult`.  On the strict path every field
is a string (or list of strings); the repair path can let non-string values
flow through unchanged, so the fields are JavaScript values. -/
structure AnalysisResult where
  alt_text : JValue
  title : JValue
  keywords : List JValue

/-- Title post-processing on the strict path: titles longer than 70
characters are cut to 70 characters and trimmed. -/
def processTitle (t : String) : String :=
  if t.length > 70 then jsTrim (strTake t 70) else t

/-- Strict path of `processResult`: after a successful schema parse, trim
the title to at most 70 characters, de-duplicate the keywords and keep the
first 25. -/
def strictProcess (validated : ValidatedResult) : AnalysisResult :=
  let processedTitle := processTitle validated.title
  let uniqueKeywords := setDedupStr validated.keywords
  let processedKeywords := uniqueKeywords.take 25
  { alt_text := .str validated.alt_text
    title := .str processedTitle
    keywords := processedKeywords.map JValue.str }

/-- The fixed fallback vocabulary of the repair path. -/
def fallbackKeywords : List String :=
  ["image", "photo", "visual", "content", "media"]

/-- Repair path of `processResult`, entered when the strict schema parse
throws: salvage `alt_text`/`title` with their fallback fields and generic
placeholders, pad/de-duplicate/replace the keyword list, and prefix a
qualifier word when a salvaged text is shorter than 5 characters. -/
def repairProcess (rawResult : JValue) : AnalysisResult :=
  let altText := jsOrElse (jsGet rawResult "alt_text")
    (jsOrElse (jsGet rawResult "description") (.str "Professional image"))
  let title := jsOrElse (jsGet rawResult "title")
    (jsOrElse (jsGet rawResult "caption") (.str "High-quality image"))
  let keywords0 : List JValue :=
    match jsGet rawResult "keywords" with
    | some (.arr xs) => xs
    | _ => []
  let keywords1 :=
    if keywords0.length < 5 then
      (keywords0 ++ fallbackKeywords.map JValue.str).take 25
    else keywords0
  let keywords2 := jsSetDedup keywords1
  let keywords3 :=
    if keywords2.length < 5 then fallbackKeywords.map JValue.str
    else keywords2
  { alt_text :=
      if jsLenGE altText 5 then altText
      else .str ("Professional " ++ jsToString altText)
    title :=
      if jsLenGE title 5 then title
      else .str ("High-quality " ++ jsToString title)
    keywords := keywords3.take 25 }

/-- `processResult` (src/backend/src/lib/validation/resultSchema.ts): strict
validation with post-processing, falling back to the repair path when the
schema parse throws. -/
def processResult (rawResult : JValue) : AnalysisResult :=
  match zodParse rawResult with
  | some validated => strictProcess validated
  | none => repairProcess rawResult

/-- Re-encoding of a processed result as a JSON value, as a caller feeding
the output back into `processResult` would present it. -/
def toJValue (r : AnalysisResult) : JValue :=
  .obj [("alt_text", r.alt_text), ("title", r.title),
        ("keywords", .arr r.keywords)]

/-- Character count of a string value (`0` for non-strings); used to state
length claims about fields that the claims assume to be strings. -/
def strLenOf (v : JValue) : Nat :=
  match v with
  | .str s => s.length
  | _ => 0

/-- Whether a value is a string of at least `n` characters. -/
def isStrWithMinLen (v : JValue) (n : Nat) : Bool :=
  match v with
  | .str s => n ≤ s.length
  | _ => false

/-! ## Retry policy (src/unnamed/part_006, `withRetry`) -/

/-- A JavaScript `Error` object: its message together with a surrogate for
its object identity, so that "the same error object" is expressible. -/
structure JSErr where
  message : String
  errId : Nat
deriving DecidableEq

/-- A thrown JavaScript value: either an `Error` instance or any other
value. -/
inductive Thrown where
  | errObj : JSErr → Thrown
  | rawValue : JValue → Thrown

/-- The normalisation `error instanceof Error ? error : new Error(String(error))`
performed by `withRetry` on each caught value:  `Error` instances are kept
as they are (identity preserved); other thrown values are wrapped into a
fresh `Error` whose message is their string conversion. -/
def toError : Thrown → JSErr
  | .errObj e => e
  | .rawValue v => { message := jsToString v, errId := 0 }

/-- Observable behaviour of one `withRetry` run: the value returned or error
finally thrown, how many times the operation was invoked, and the total
time slept between attempts. -/
structure RetryTrace (A : Type) where
  result : Except JSErr A
  calls : Nat
  totalSleepMs : Nat

/-- The loop of `withRetry`: `attempt` is the current 0-indexed attempt
number and `remaining` the number of attempts still allowed after this one
(`remaining = maxRetries - attempt`; the loop breaks when
`attempt === maxRetries`).  After a failed non-final attempt the loop sleeps
`baseDelayMs * 2 ^ attempt` milliseconds. -/
def withRetryGo (fn : Nat → Except Thrown A) (baseDelayMs : Nat) :
    Nat → Nat → RetryTrace A
  | attempt, 0 =>
    match fn attempt with
    | .ok a => ⟨.ok a, 1, 0⟩
    | .error t => ⟨.error (toError t), 1, 0⟩
  | attempt, r + 1 =>
    match fn attempt with
    | .ok a => ⟨.ok a, 1, 0⟩
    | .error _ =>
      let rest := withRetryGo fn baseDelayMs (attempt + 1) r
      ⟨rest.result, rest.calls + 1, baseDelayMs * 2 ^ attempt + rest.totalSleepMs⟩

/-- `withRetry(fn, maxRetries, baseDelayMs)`: invoke `fn` up to
`maxRetries + 1` times, with exponential backoff between attempts, finally
rethrowing the last attempt's (normalised) error.  The source's default
arguments are `maxRetries = 2`, `baseDelayMs = 1000`.  The operation is
modelled as a function of the attempt number so that attempts may behave
differently (the mocked network); the loop itself never inspects the error. -/
def withRetryTrace (fn : Nat → Except Thrown A) (maxRetries baseDelayMs : Nat) :
    RetryTrace A :=
  withRetryGo fn baseDelayMs 0 maxRetries

/-! ## Protocol adapter attempt bodies
(src/backend/src/lib/modelEndpoint/openaiEndpoint.ts and src/unnamed/part_005)

Both adapters normalise the image to base64 once, build a request body, and
then pass a `makeRequest` closure to `withRetry`.  The closure — the unit
that is retried — is modelled here; the base64 normalisation happens before
any retrying and is irrelevant to the claims.  The network is mocked by a
function from the attempt number to what `fetchWithTimeout` did on that
attempt; `response.json()` is folded into the response body. -/

/-- What `fetchWithTimeout` did on one attempt: threw (transport error or
timeout), or returned a response with `ok`/`status`/`statusText` and a
decoded JSON body. -/
inductive FetchOutcome where
  | failure : Thrown → FetchOutcome
  | response : Bool → Nat → String → JValue → FetchOutcome

/-- Index access `v?.[i]`: array element, character of a string, or the
`toString i` property of an object; `undefined` otherwise. -/
def jsIndex (v : JValue) (i : Nat) : Option JValue :=
  match v with
  | .arr xs => xs.get? i
  | .str s => (s.toList.get? i).map (fun ch => .str (String.mk [ch]))
  | .obj fields => lookupField fields (toString i)
  | _ => none

/-- The extraction `data.choices?.[0]?.message?.content`. -/
def contentPath (data : JValue) : Option JValue :=
  (jsGet data "choices").bind fun c =>
    (jsIndex c 0).bind fun e =>
      (jsGet e "message").bind fun m => jsGet m "content"

/-- `String.prototype.slice(a, -b)` as used on fenced content. -/
def strDropEnds (s : String) (a b : Nat) : String :=
  let l := s.toList.drop a
  String.mk (l.take (l.length - b))

/-- The pattern match `cleanContent.match(/\x7b[\s\S]*\x7d/)`: the greedy
regex matches from the first opening brace to the last closing brace, when
a closing brace occurs after the first opening brace. -/
def braceMatch (c : String) : Option String :=
  let cs := c.toList
  match cs.findIdx? (fun ch => ch == '\x7b'), (cs.reverse.findIdx? (fun ch => ch == '\x7d')) with
  | some i, some jr =>
    let j := cs.length - 1 - jr
    if i < j then some (String.mk ((cs.drop i).take (j - i + 1))) else none
  | _, _ => none

/-- The content clean-up of the Chat-Completions adapter: trim, strip a
Markdown code fence when present, then keep the first-to-last brace
substring when the text still contains one. -/
def cleanContent (content : String) : String :=
  let c := jsTrim content
  let c :=
    if c.startsWith "```json" && c.endsWith "```" then jsTrim (strDropEnds c 7 3)
    else if c.startsWith "```" && c.endsWith "```" then jsTrim (strDropEnds c 3 3)
    else c
  match braceMatch c with
  | some m => m
  | none => c

/-- The value returned by a successful adapter attempt:
`{...validatedResult, raw: data}`. -/
structure AnalyzeResult where
  alt_text : JValue
  title : JValue
  keywords : List JValue
  raw : JValue

/-- Truthiness of a possibly-undefined value. -/
def jsTruthyOpt (o : Option JValue) : Bool :=
  match o with
  | some v => jsTruthy v
  | none => false

/-- One attempt of the Chat-Completions adapter's `makeRequest`
(`OpenAICompatibleEndpoint.analyzeImage`): check `response.ok`, extract the
assistant content, clean it up and parse it as JSON (`jsonParse` mocks
`JSON.parse`, failing with `none`), then hand the parsed value to
`processResult`.  Every failure is thrown inside the closure that
`withRetry` wraps. -/
def openaiAttempt (net : Nat → FetchOutcome) (jsonParse : String → Option JValue)
    (attempt : Nat) : Except Thrown AnalyzeResult :=
  match net attempt with
  | .failure t => .error t
  | .response ok status statusText body =>
    if ok = false then
      .error (.errObj ⟨s!"OpenAI API error: {status} {statusText}", 0⟩)
    else
      match contentPath body with
      | none => .error (.errObj ⟨"No content in OpenAI response", 0⟩)
      | some cv =>
        if jsTruthy cv = false then
          .error (.errObj ⟨"No content in OpenAI response", 0⟩)
        else
          match cv with
          | .str c =>
            match jsonParse (cleanContent c) with
            | some parsedContent =>
              let r := processResult parsedContent
              .ok ⟨r.alt_text, r.title, r.keywords, body⟩
            | none =>
              .error (.errObj ⟨"Failed to parse JSON from model response: " ++ c, 0⟩)
          | _ => .error (.errObj ⟨"content.trim is not a function", 0⟩)

/-- One attempt of the Custom adapter's `makeRequest`
(`CustomBackendEndpoint.analyzeImage`): check `response.ok`, require truthy
top-level `alt_text`/`title`/`keywords` fields, then hand the body to
`processResult`. -/
def customAttempt (net : Nat → FetchOutcome) (attempt : Nat) :
    Except Thrown AnalyzeResult :=
  match net attempt with
  | .failure t => .error t
  | .response ok status statusText body =>
    if ok = false then
      .error (.errObj ⟨s!"Custom backend error: {status} {statusText}", 0⟩)
    else
      if (jsTruthyOpt (jsGet body "alt_text") && jsTruthyOpt (jsGet body "title")
          && jsTruthyOpt (jsGet body "keywords")) = false then
        .error (.errObj ⟨"Invalid response format from custom backend", 0⟩)
      else
        let r := processResult body
        .ok ⟨r.alt_text, r.title, r.keywords, body⟩

/-- `analyzeImage` of the Chat-Completions adapter:
`withRetry(makeRequest, this.retries)`. -/
def openaiAnalyzeTrace (net : Nat → FetchOutcome) (jsonParse : String → Option JValue)
    (retries baseDelayMs : Nat) : RetryTrace AnalyzeResult :=
  withRetryTrace (openaiAttempt net jsonParse) retries baseDelayMs

/-- `analyzeImage` of the Custom adapter: `withRetry(makeRequest, this.retries)`. -/
def customAnalyzeTrace (net : Nat → FetchOutcome) (retries baseDelayMs : Nat) :
    RetryTrace AnalyzeResult :=
  withRetryTrace (customAttempt net) retries baseDelayMs

/-! ## Preset-aware validation (`validateMetadata`, src/backend/src/routes/analyze.ts)

The function receives an arbitrary `metadata` value and an optional preset
row.  Calling `.trim()` or `.toLowerCase()` on a truthy non-string field
throws a `TypeError`; the `Except` layer models those throws. -/

/-- A preset row (`title_max_length`, `keywords_min`, `keywords_max`
columns; `none` models an absent/`null` column value).  `keyword_rules` is
not consulted by `validateMetadata`. -/
structure Preset where
  title_max_length : Option Int
  keywords_min : Option Int
  keywords_max : Option Int

/-- `preset?.field` for an optional preset row. -/
def presetGet (preset : Option Preset) (f : Preset → Option Int) : Option Int :=
  match preset with
  | some p => f p
  | none => none

/-- `x || d` for an optional numeric field: the default applies when the
field is absent, `null`, or `0` (falsy). -/
def jsOrNum (v : Option Int) (d : Int) : Int :=
  match v with
  | some n => if n = 0 then d else n
  | none => d

/-- The outcome of `validateMetadata`. -/
structure ValidationResult where
  is_valid : Bool
  warnings : List String
  errors : List String

/-- The message pushed when the keyword count is below the minimum. -/
def tooFewMsg (n : Nat) (minKeywords : Int) : String :=
  s!"Too few keywords: {n} (minimum: {minKeywords})"

/-- The message pushed when the keyword count is above the maximum. -/
def tooManyMsg (n : Nat) (maxKeywords : Int) : String :=
  s!"Too many keywords: {n} (maximum: {maxKeywords})"

/-- The message pushed when the title is longer than the limit. -/
def titleExceedsMsg (maxLength : Int) (n : Nat) : String :=
  s!"Title exceeds {maxLength} characters ({n})"

/-- The message pushed when the alt text is longer than 125 characters. -/
def altExceedsMsg (n : Nat) : String :=
  s!"Alt text exceeds 125 characters ({n})"

/-- The title block of `validateMetadata`: one `Title is required` error
when the title is falsy or blank, else a length warning against
`preset?.title_max_length || 70`.  Returns `(warnings, errors)`. -/
def titleCheck (metadata : JValue) (preset : Option Preset) :
    Except String (List String × List String) :=
  match jsGet metadata "title" with
  | none => .ok ([], ["Title is required"])
  | some tv =>
    if jsTruthy tv = false then .ok ([], ["Title is required"])
    else
      match tv with
      | .str s =>
        if (jsTrim s).length = 0 then .ok ([], ["Title is required"])
        else
          let maxLength := jsOrNum (presetGet preset (fun p => p.title_max_length)) 70
          if (s.length : Int) > maxLength then
            .ok ([titleExceedsMsg maxLength s.length], [])
          else .ok ([], [])
      | _ => .error "metadata.title.trim is not a function"

/-- The alt-text block of `validateMetadata`: a `missing` warning when the
field is falsy or blank, else a length warning above 125 characters.
Returns the warnings (this block never pushes errors). -/
def altCheck (metadata : JValue) : Except String (List String) :=
  match jsGet metadata "alt_text" with
  | none => .ok ["Alt text is missing"]
  | some av =>
    if jsTruthy av = false then .ok ["Alt text is missing"]
    else
      match av with
      | .str s =>
        if (jsTrim s).length = 0 then .ok ["Alt text is missing"]
        else if s.length > 125 then .ok [altExceedsMsg s.length]
        else .ok []
      | _ => .error "metadata.alt_text.trim is not a function"

/-- The keywords block of `validateMetadata`: an error when the field is not
an array, else count warnings against `preset?.keywords_min || 15` and
`preset?.keywords_max || 25` and a duplicate warning (case-insensitive
comparison).  `k.toLowerCase()` throws on a non-string element. -/
def keywordsCheck (metadata : JValue) (preset : Option Preset) :
    Except String (List String × List String) :=
  match jsGet metadata "keywords" with
  | some (.arr ks) =>
    let minKeywords := jsOrNum (presetGet preset (fun p => p.keywords_min)) 15
    let maxKeywords := jsOrNum (presetGet preset (fun p => p.keywords_max)) 25
    let n := ks.length
    let w1 := if (n : Int) < minKeywords then [tooFewMsg n minKeywords] else []
    let w2 := if (n : Int) > maxKeywords then [tooManyMsg n maxKeywords] else []
    match allStrings ks with
    | some ss =>
      let uniqueKeywords := setDedupStr (ss.map jsToLower)
      let w3 := if uniqueKeywords.length ≠ ks.length then
          ["Duplicate keywords detected"]
        else []
      .ok (w1 ++ w2 ++ w3, [])
    | none => .error "k.toLowerCase is not a function"
  | _ => .ok ([], ["Keywords must be an array"])

/-- `validateMetadata(metadata, preset)`: the three field blocks in source
order, with `is_valid := errors.length === 0`.  Warnings never make the
outcome invalid. -/
def validateMetadata (metadata : JValue) (preset : Option Preset) :
    Except String ValidationResult :=
  if jsTruthy metadata = false then
    .ok { is_valid := false, warnings := [], errors := ["No metadata provided"] }
  else
    match titleCheck metadata preset with
    | .error e => .error e
    | .ok (tw, te) =>
      match altCheck metadata with
      | .error e => .error e
      | .ok aw =>
        match keywordsCheck metadata preset with
        | .error e => .error e
        | .ok (kw, ke) =>
          .ok { is_valid := (te ++ ke).isEmpty
                warnings := tw ++ aw ++ kw
                errors := te ++ ke }

/-! ## Orchestrator (`processImagesAsync`, src/backend/src/routes/analyze.ts)

For each image record, sequentially: persist `processing`, call
`endpoint.analyzeImage`, compute `validateMetadata` (its outcome is bound to
a local that the source never reads — only a throw inside it is observable),
and persist `completed` with the metadata; any throw in the `try` block is
caught and persisted as `error` with the error's `.message`.  Database
writes are modelled as infallible state updates (the claims concern analysis
failures, not store failures), and only each image's terminal state is
recorded. -/

/-- Lifecycle status of an image record. -/
inductive ImageStatus where
  | pending
  | processing
  | completed
  | error
deriving DecidableEq

/-- The terminal state the orchestrator persists for one image. -/
structure ImageOutcome where
  status : ImageStatus
  errorMessage : Option String
  result : Option AnalysisResult

/-- Processing of a single image inside the batch loop:  the endpoint call
is `analyze` (the selected adapter's `analyzeImage`, already including its
internal retrying), keyed by the image id. -/
def processOne (analyze : Nat → Except JSErr AnalysisResult)
    (preset : Option Preset) (id : Nat) : ImageOutcome :=
  match analyze id with
  | .error e => { status := .error, errorMessage := some e.message, result := none }
  | .ok r =>
    let metadata := JValue.obj
      [("alt_text", r.alt_text), ("title", r.title), ("keywords", .arr r.keywords)]
    match validateMetadata metadata preset with
    | .error msg =>
      { status := .error, errorMessage := some msg, result := none }
    | .ok _validation =>
      { status := .completed, errorMessage := none, result := some r }

/-- `processImagesAsync(imageRecords, preset)`: the sequential batch loop.
Each iteration is wrapped in its own try/catch, so the loop body reduces to
an independent per-image outcome and the loop to a map over the records. -/
def processImagesAsync (analyze : Nat → Except JSErr AnalysisResult)
    (preset : Option Preset) (ids : List Nat) : List (Nat × ImageOutcome) :=
  ids.map (fun id => (id, processOne analyze preset id))

/-- The metadata object the orchestrator assembles from an adapter result
before validating it. -/
def mkMetadata (alt title : JValue) (keywords : List JValue) : JValue :=
  .obj [("alt_text", alt), ("title", title), ("keywords", .arr keywords)]

/-- Projection to the underlying string of a string value. -/
def strOf : JValue → Option String
  | .str s => some s
  | _ => none

/-! ## Helper lemmas about the set-based de-duplications -/

theorem setDedupStr_sublist (l : List String) : (setDedupStr l).Sublist l := by
  induction l with
  | nil => simp [setDedupStr]
  | cons x rest ih =>
    rw [setDedupStr]
    exact ((List.filter_sublist _).trans ih).cons₂ x

theorem setDedupStr_nodup (l : List String) : (setDedupStr l).Nodup := by
  induction l with
  | nil => simp [setDedupStr]
  | cons x rest ih =>
    rw [setDedupStr]
    refine List.nodup_cons.mpr ⟨fun hx => ?_, ih.filter _⟩
    have := (List.mem_filter.mp hx).2
    simp at this

theorem setDedupStr_eq_self (l : List String) (h : l.Nodup) : setDedupStr l = l := by
  induction l with
  | nil => rw [setDedupStr]
  | cons x rest ih =>
    rw [setDedupStr]
    obtain ⟨hx, hrest⟩ := List.nodup_cons.mp h
    rw [ih hrest]
    rw [List.filter_eq_self.mpr
      (fun a ha => bne_iff_ne.mpr (fun hax => hx (by rwa [hax] at ha)))]

theorem mem_setDedupStr (l : List String) (a : String) (h : a ∈ l) :
    a ∈ setDedupStr l := by
  induction l with
  | nil => simp at h
  | cons x rest ih =>
    rw [setDedupStr]
    rcases List.mem_cons.mp h with rfl | hr
    · exact List.mem_cons_self _ _
    · by_cases hax : a = x
      · exact hax ▸ List.mem_cons_self _ _
      · exact List.mem_cons_of_mem _
          (List.mem_filter.mpr ⟨ih hr, bne_iff_ne.mpr hax⟩)

theorem jsSetDedup_sublist (l : List JValue) : (jsSetDedup l).Sublist l := by
  induction l with
  | nil => simp [jsSetDedup]
  | cons x rest ih =>
    rw [jsSetDedup]
    exact ((List.filter_sublist _).trans ih).cons₂ x

/-- `Array.from(new Set(xs))` leaves no two entries that are
`SameValueZero`-equal. -/
theorem jsSetDedup_pairwise (l : List JValue) :
    (jsSetDedup l).Pairwise (fun a b => jsPrimEq a b = false) := by
  induction l with
  | nil => simp [jsSetDedup]
  | cons x rest ih =>
    rw [jsSetDedup]
    refine List.pairwise_cons.mpr
      ⟨fun y hy => ?_, ih.sublist (List.filter_sublist _)⟩
    have := (List.mem_filter.mp hy).2
    simpa using this

theorem jsPrimEq_str (a b : String) : jsPrimEq (.str a) (.str b) = (a == b) := rfl

/-- A list of pairwise-distinct strings maps to a list of pairwise
`SameValueZero`-distinct string values. -/
theorem pairwise_primEq_of_nodup (l : List String) (h : l.Nodup) :
    (l.map JValue.str).Pairwise (fun a b => jsPrimEq a b = false) := by
  rw [List.pairwise_map]
  exact h.imp (fun hab => by simpa [jsPrimEq_str] using beq_eq_false_iff_ne.mpr hab)

/-! ## Helper lemmas about strings and the strict path -/

theorem jsTrim_length_le (s : String) : (jsTrim s).length ≤ s.length := by
  have h1 := (List.dropWhile_sublist (l := s.toList) Char.isWhitespace).length_le
  have h2 := (List.dropWhile_sublist
    (l := (s.toList.dropWhile Char.isWhitespace).reverse) Char.isWhitespace).length_le
  rw [List.length_reverse] at h2
  show ((s.toList.dropWhile Char.isWhitespace).reverse.dropWhile
    Char.isWhitespace).reverse.length ≤ s.toList.length
  rw [List.length_reverse]
  exact h2.trans h1

theorem strTake_length (s : String) (n : Nat) :
    (strTake s n).length = min n s.length := by
  show (s.toList.take n).length = min n s.toList.length
  exact List.length_take _ _

/-- Every processed title has at most 70 characters. -/
theorem processTitle_length_le (t : String) : (processTitle t).length ≤ 70 := by
  unfold processTitle
  split
  · calc (jsTrim (strTake t 70)).length ≤ (strTake t 70).length := jsTrim_length_le _
      _ ≤ 70 := by rw [strTake_length]; omega
  · omega

/-- A title already at most 70 characters long is left unchanged. -/
theorem processTitle_eq_self (t : String) (h : t.length ≤ 70) : processTitle t = t := by
  unfold processTitle
  rw [if_neg (by omega)]

theorem allStrings_map_str (l : List String) :
    allStrings (l.map JValue.str) = some l := by
  induction l with
  | nil => rfl
  | cons x rest ih => simp [allStrings, ih]

/-! ## Helper lemmas about the retry loop -/

/-- When every attempt throws, the loop runs all its attempts and finally
rethrows the error of the last one. -/
theorem withRetryGo_allFail {A : Type} (fn : Nat → Except Thrown A)
    (t : Nat → Thrown) (h : ∀ i, fn i = .error (t i)) (base : Nat) :
    ∀ r attempt, (withRetryGo fn base attempt r).calls = r + 1 ∧
      (withRetryGo fn base attempt r).result = .error (toError (t (attempt + r))) := by
  intro r
  induction r with
  | zero =>
    intro attempt
    simp [withRetryGo, h attempt]
  | succ n ih =>
    intro attempt
    have hr := ih (attempt + 1)
    simp only [withRetryGo, h attempt]
    refine ⟨by simp [hr.1], ?_⟩
    have : attempt + 1 + n = attempt + (n + 1) := by omega
    simpa [this] using hr.2

/-- When the attempts at relative indices `0, …, k-1` throw and the attempt
at relative index `k ≤ remaining` succeeds, the loop returns the success
value after `k + 1` invocations, having slept
`base * (2^attempt + … + 2^(attempt+k-1))` in between. -/
theorem withRetryGo_succeed {A : Type} (fn : Nat → Except Thrown A)
    (base : Nat) (a : A) :
    ∀ (k attempt r : Nat), k ≤ r →
      (∀ i, i < k → ∃ t, fn (attempt + i) = .error t) →
      fn (attempt + k) = .ok a →
      (withRetryGo fn base attempt r).result = .ok a ∧
      (withRetryGo fn base attempt r).calls = k + 1 ∧
      (withRetryGo fn base attempt r).totalSleepMs =
        base * (Finset.range k).sum (fun i => 2 ^ (attempt + i)) := by
  intro k
  induction k with
  | zero =>
    intro attempt r _ _ hs
    rw [Nat.add_zero] at hs
    cases r with
    | zero => simp [withRetryGo, hs]
    | succ n => simp [withRetryGo, hs]
  | succ m ih =>
    intro attempt r hkr hfail hs
    obtain ⟨r', rfl⟩ : ∃ r', r = r' + 1 := ⟨r - 1, by omega⟩
    obtain ⟨t0, ht0⟩ := hfail 0 (Nat.succ_pos m)
    rw [Nat.add_zero] at ht0
    have ihr := ih (attempt + 1) r' (by omega)
      (fun i hi => by
        have := hfail (i + 1) (by omega)
        simpa [show attempt + (i + 1) = attempt + 1 + i by omega] using this)
      (by simpa [show attempt + (m + 1) = attempt + 1 + m by omega] using hs)
    simp only [withRetryGo, ht0]
    refine ⟨ihr.1, by simp [ihr.2.1], ?_⟩
    simp only [ihr.2.2]
    have hsum : (Finset.range (m + 1)).sum (fun i => 2 ^ (attempt + i)) =
        (Finset.range m).sum (fun i => 2 ^ (attempt + 1 + i)) + 2 ^ attempt := by
      rw [Finset.sum_range_succ' (fun i => 2 ^ (attempt + i)) m]
      congr 1
      refine Finset.sum_congr rfl (fun i _ => ?_)
      congr 1
      omega
    rw [hsum, Nat.mul_add]
    ring

/-! ## Helper lemmas about the strict schema -/

/-- The bounds that hold of every payload the strict schema accepts. -/
theorem zodParse_bounds {p : JValue} {v : ValidatedResult} (h : zodParse p = some v) :
    5 ≤ v.alt_text.length ∧ v.alt_text.length ≤ 160 ∧ 5 ≤ v.title.length ∧
      5 ≤ v.keywords.length ∧ v.keywords.length ≤ 50 := by
  unfold zodParse at h
  repeat' split at h
  all_goals simp_all
  obtain rfl := h.symm
  assumption

/-- The strict parse of a re-encoded strictly-processed result, when the
processed title and the de-duplicated keywords still satisfy the schema
minima. -/
theorem zodParse_toJValue_strict (v : ValidatedResult)
    (h1 : 5 ≤ v.alt_text.length) (h2 : v.alt_text.length ≤ 160)
    (hT : 5 ≤ (processTitle v.title).length)
    (hK : 5 ≤ (setDedupStr v.keywords).length) :
    zodParse (toJValue (strictProcess v)) =
      some ⟨v.alt_text, processTitle v.title, (setDedupStr v.keywords).take 25⟩ := by
  have hKlen : ((setDedupStr v.keywords).take 25).length =
      min 25 (setDedupStr v.keywords).length := List.length_take _ _
  simp only [toJValue, strictProcess]
  simp only [zodParse, lookupField, if_pos, if_neg, String.reduceEq, reduceIte,
    allStrings_map_str]
  rw [if_pos]
  refine ⟨h1, h2, hT, ?_, ?_⟩
  · omega
  · omega

/-! ## Claim C4 — retry exhaustion -/

/-- C4: an operation that fails on every attempt, run with `maxRetries = n`,
is invoked exactly `n + 1` times, and the error finally thrown is exactly
the error object produced by the last attempt — the same value, identity
and message included, not a wrapper.  (The attempts here throw `Error`
instances, as every caller in the repository does; `withRetry` normalises
only non-`Error` throwables.) -/
theorem claimC4_retry_exhaustion {A : Type} (fn : Nat → Except Thrown A)
    (err : Nat → JSErr) (n base : Nat)
    (h : ∀ i, fn i = .error (.errObj (err i))) :
    (withRetryTrace fn n base).calls = n + 1 ∧
    (withRetryTrace fn n base).result = .error (err n) := by
  have hgo := withRetryGo_allFail fn (fun i => .errObj (err i)) h base n 0
  exact ⟨hgo.1, by simpa [toError] using hgo.2⟩

/-- An operation that always fails: attempt `i` throws a distinct `Error`
object with message `attempt i failed` and identity surrogate `i`. -/
def alwaysFailOp : Nat → Except Thrown Nat :=
  fun i => .error (.errObj ⟨s!"attempt {i} failed", i⟩)

/-- The error object thrown by attempt `i` of `alwaysFailOp`. -/
def alwaysFailErr : Nat → JSErr :=
  fun i => ⟨s!"attempt {i} failed", i⟩

theorem claimC4_witness :
    (withRetryTrace alwaysFailOp 2 1000).calls = 2 + 1 ∧
    (withRetryTrace alwaysFailOp 2 1000).result = .error (alwaysFailErr 2) :=
  claimC4_retry_exhaustion alwaysFailOp alwaysFailErr 2 1000 (fun _ => rfl)

/-! ## Claim C5 — eventual success and total backoff -/

/-- C5: an operation that fails on its first `k` attempts and succeeds on
attempt `k + 1`, run with `maxRetries = n ≥ k`, returns the success value
after exactly `k + 1` invocations, and the total time slept between
attempts is `base * (2^0 + 2^1 + … + 2^(k-1))`, with no sleep after the
final attempt. -/
theorem claimC5_backoff {A : Type} (fn : Nat → Except Thrown A) (a : A)
    (k n base : Nat) (hkn : k ≤ n)
    (hfail : ∀ i, i < k → ∃ t, fn i = .error t) (hsucc : fn k = .ok a) :
    (withRetryTrace fn n base).result = .ok a ∧
    (withRetryTrace fn n base).calls = k + 1 ∧
    (withRetryTrace fn n base).totalSleepMs =
      base * (Finset.range k).sum (fun i => 2 ^ i) := by
  have hgo := withRetryGo_succeed fn base a k 0 n hkn
    (by simpa using hfail) (by simpa using hsucc)
  refine ⟨hgo.1, hgo.2.1, ?_⟩
  simpa using hgo.2.2

/-- An operation that fails twice (timeouts) and succeeds on the third
attempt. -/
def failTwiceOp : Nat → Except Thrown Nat :=
  fun i => if i < 2 then .error (.errObj ⟨"Request timeout", i⟩) else .ok 42

theorem claimC5_witness :
    (withRetryTrace failTwiceOp 2 1000).result = .ok 42 ∧
    (withRetryTrace failTwiceOp 2 1000).calls = 2 + 1 ∧
    (withRetryTrace failTwiceOp 2 1000).totalSleepMs =
      1000 * (Finset.range 2).sum (fun i => 2 ^ i) :=
  claimC5_backoff failTwiceOp 42 2 2 1000 (by omega)
    (fun i hi => ⟨.errObj ⟨"Request timeout", i⟩, by
      simp only [failTwiceOp, if_pos hi]⟩)
    (by simp [failTwiceOp])

/-! ## Claim C1 — which errors are retried -/

/-- A mocked network on which every attempt gets an HTTP 200 response whose
assistant content is the non-JSON text `not json`. -/
def unparsableNet : Nat → FetchOutcome :=
  fun _ => .response true 200 "OK"
    (.obj [("choices", .arr [.obj [("message",
      .obj [("content", .str "not json")])]])])

/-- A mock of `JSON.parse` as it behaves on `not json`: it throws (no
correct JSON parser accepts this input). -/
def rejectingParse : String → Option JValue := fun _ => none

/-- C1 counterexample: a response whose content cannot be parsed as JSON is
a format error, yet with `maxRetries = 2` the Chat-Completions adapter
invokes its request three times — the parse failure is retried like any
other error, and surfaces only after retry exhaustion, not immediately
after the attempt that produced it (that would be a single call). -/
theorem claimC1_counterexample :
    (openaiAnalyzeTrace unparsableNet rejectingParse 2 1000).calls = 3 ∧
    (openaiAnalyzeTrace unparsableNet rejectingParse 2 1000).result =
      .error ⟨"Failed to parse JSON from model response: not json", 0⟩ :=
  ⟨rfl, rfl⟩

/-- C1 amended: both adapters wrap their whole attempt — transport, HTTP
status check, content extraction, JSON parsing and shape check alike — in
the retry policy, which never inspects the error.  Hence every error,
format and shape errors included, is retried: an attempt body that throws
on every attempt is invoked `maxRetries + 1` times by either adapter, and
the last attempt's error is what finally surfaces. -/
theorem claimC1_amended (netO netC : Nat → FetchOutcome)
    (parse : String → Option JValue) (n base : Nat) (eO eC : Nat → JSErr)
    (hO : ∀ i, openaiAttempt netO parse i = .error (.errObj (eO i)))
    (hC : ∀ i, customAttempt netC i = .error (.errObj (eC i))) :
    (openaiAnalyzeTrace netO parse n base).calls = n + 1 ∧
    (openaiAnalyzeTrace netO parse n base).result = .error (eO n) ∧
    (customAnalyzeTrace netC n base).calls = n + 1 ∧
    (customAnalyzeTrace netC n base).result = .error (eC n) := by
  have h1 := withRetryGo_allFail (openaiAttempt netO parse)
    (fun i => .errObj (eO i)) hO base n 0
  have h2 := withRetryGo_allFail (customAttempt netC)
    (fun i => .errObj (eC i)) hC base n 0
  exact ⟨h1.1, by simpa [toError] using h1.2, h2.1, by simpa [toError] using h2.2⟩

/-- A mocked network for the Custom adapter on which every attempt returns
HTTP 200 with a body missing the required `title`/`keywords` fields. -/
def missingFieldsNet : Nat → FetchOutcome :=
  fun _ => .response true 200 "OK" (.obj [("alt_text", .str "A landscape")])

theorem claimC1_witness :
    (openaiAnalyzeTrace unparsableNet rejectingParse 4 1000).calls = 4 + 1 ∧
    (openaiAnalyzeTrace unparsableNet rejectingParse 4 1000).result =
      .error ⟨"Failed to parse JSON from model response: not json", 0⟩ ∧
    (customAnalyzeTrace missingFieldsNet 4 1000).calls = 4 + 1 ∧
    (customAnalyzeTrace missingFieldsNet 4 1000).result =
      .error ⟨"Invalid response format from custom backend", 0⟩ :=
  claimC1_amended unparsableNet missingFieldsNet rejectingParse 4 1000
    (fun _ => ⟨"Failed to parse JSON from model response: not json", 0⟩)
    (fun _ => ⟨"Invalid response format from custom backend", 0⟩)
    (fun _ => rfl) (fun _ => rfl)

/-! ## Claim C6 — per-image failure isolation in the batch loop -/

/-- C6: when the analysis of one image in a batch throws, exactly that
image is persisted with status `error` and the thrown error's message
stored verbatim, the batch still produces an outcome for every record, and
every record's outcome — the subsequent images included — is the one its
own analysis alone determines. -/
theorem claimC6_batch_isolation (analyze : Nat → Except JSErr AnalysisResult)
    (preset : Option Preset) (ids : List Nat) (id : Nat) (e : JSErr)
    (hmem : id ∈ ids) (herr : analyze id = .error e) :
    (id, ⟨ImageStatus.error, some e.message, none⟩) ∈
      processImagesAsync analyze preset ids ∧
    (processImagesAsync analyze preset ids).length = ids.length ∧
    (∀ j ∈ ids, (j, processOne analyze preset j) ∈
      processImagesAsync analyze preset ids) := by
  refine ⟨?_, by simp [processImagesAsync],
    fun j hj => List.mem_map_of_mem _ hj⟩
  have hone : processOne analyze preset id =
      ⟨ImageStatus.error, some e.message, none⟩ := by
    simp [processOne, herr]
  have := List.mem_map_of_mem (fun i => (i, processOne analyze preset i)) hmem
  simpa [processImagesAsync, hone] using this

/-- A healthy analysis result used by the witness batch. -/
def witnessResult : AnalysisResult :=
  ⟨.str "A scenic mountain view", .str "Mountain view",
    ["peak", "snow", "sky", "nature", "alps"].map JValue.str⟩

/-- A batch endpoint for which image 1 fails with a network timeout and all
other images succeed. -/
def witnessAnalyze : Nat → Except JSErr AnalysisResult :=
  fun i => if i = 1 then .error ⟨"Network timeout", 7⟩ else .ok witnessResult

theorem claimC6_witness :
    (1, ⟨ImageStatus.error, some "Network timeout", none⟩) ∈
      processImagesAsync witnessAnalyze none [0, 1, 2] ∧
    (processImagesAsync witnessAnalyze none [0, 1, 2]).length = [0, 1, 2].length ∧
    (∀ j ∈ [0, 1, 2], (j, processOne witnessAnalyze none j) ∈
      processImagesAsync witnessAnalyze none [0, 1, 2]) :=
  claimC6_batch_isolation witnessAnalyze none [0, 1, 2] 1 ⟨"Network timeout", 7⟩
    (by decide) rfl

/-! ## Claim C7 — preset keyword bounds give warnings, not errors -/

/-- C7 amended: for a metadata object with a string title that is non-blank,
a string alt text, and an array of string keywords, the validation outcome
never records an error (`is_valid` stays true), and a keyword count outside
the effective range produces the corresponding warning — where the
effective minimum is `preset.keywords_min` when that field is present and
non-zero and `15` otherwise, and the effective maximum is
`preset.keywords_max` when present and non-zero and `25` otherwise (the
source applies the default to every falsy field value, not only to an
absent preset). -/
theorem claimC7_keyword_warnings (t alt : String) (ks : List String)
    (preset : Option Preset) (ht : (jsTrim t).length ≠ 0) :
    ∃ out, validateMetadata (mkMetadata (.str alt) (.str t) (ks.map JValue.str))
        preset = .ok out ∧
      out.errors = [] ∧ out.is_valid = true ∧
      ((ks.length : Int) < jsOrNum (presetGet preset (fun p => p.keywords_min)) 15 →
        tooFewMsg ks.length (jsOrNum (presetGet preset (fun p => p.keywords_min)) 15)
          ∈ out.warnings) ∧
      ((ks.length : Int) > jsOrNum (presetGet preset (fun p => p.keywords_max)) 25 →
        tooManyMsg ks.length (jsOrNum (presetGet preset (fun p => p.keywords_max)) 25)
          ∈ out.warnings) := by
  have htne : t ≠ "" := by
    intro h
    subst h
    exact ht rfl
  have hmd : jsGet (mkMetadata (.str alt) (.str t) (ks.map JValue.str)) "title" =
      some (.str t) := by simp [mkMetadata, jsGet, lookupField]
  have hma : jsGet (mkMetadata (.str alt) (.str t) (ks.map JValue.str)) "alt_text" =
      some (.str alt) := by simp [mkMetadata, jsGet, lookupField]
  have hmk : jsGet (mkMetadata (.str alt) (.str t) (ks.map JValue.str)) "keywords" =
      some (.arr (ks.map JValue.str)) := by simp [mkMetadata, jsGet, lookupField]
  obtain ⟨tw, htw⟩ : ∃ tw, titleCheck (mkMetadata (.str alt) (.str t)
      (ks.map JValue.str)) preset = .ok (tw, []) := by
    simp only [titleCheck, hmd]
    rw [if_neg (by simp [jsTruthy, htne]), if_neg ht]
    split
    · exact ⟨_, rfl⟩
    · exact ⟨_, rfl⟩
  obtain ⟨aw, haw⟩ : ∃ aw, altCheck (mkMetadata (.str alt) (.str t)
      (ks.map JValue.str)) = .ok aw := by
    simp only [altCheck, hma]
    split
    · exact ⟨_, rfl⟩
    · split
      · exact ⟨_, rfl⟩
      · split
        · exact ⟨_, rfl⟩
        · exact ⟨_, rfl⟩
  obtain ⟨kw, hkw, hlow, hhigh⟩ :
      ∃ kw, keywordsCheck (mkMetadata (.str alt) (.str t) (ks.map JValue.str))
          preset = .ok (kw, []) ∧
        ((ks.length : Int) <
            jsOrNum (presetGet preset (fun p => p.keywords_min)) 15 →
          tooFewMsg ks.length
            (jsOrNum (presetGet preset (fun p => p.keywords_min)) 15) ∈ kw) ∧
        ((ks.length : Int) >
            jsOrNum (presetGet preset (fun p => p.keywords_max)) 25 →
          tooManyMsg ks.length
            (jsOrNum (presetGet preset (fun p => p.keywords_max)) 25) ∈ kw) := by
    refine ⟨(if (ks.length : Int) <
          jsOrNum (presetGet preset (fun p => p.keywords_min)) 15 then
        [tooFewMsg ks.length
          (jsOrNum (presetGet preset (fun p => p.keywords_min)) 15)]
      else []) ++
      (if (ks.length : Int) >
          jsOrNum (presetGet preset (fun p => p.keywords_max)) 25 then
        [tooManyMsg ks.length
          (jsOrNum (presetGet preset (fun p => p.keywords_max)) 25)]
      else []) ++
      (if (setDedupStr (ks.map jsToLower)).length ≠ ks.length then
        ["Duplicate keywords detected"]
      else []), ?_, ?_, ?_⟩
    · simp only [keywordsCheck, hmk, allStrings_map_str, List.length_map,
        List.map_map]
    · intro h
      rw [if_pos h]
      simp [List.mem_append]
    · intro h
      rw [if_pos h]
      simp [List.mem_append]
  refine ⟨{ is_valid := true, warnings := tw ++ aw ++ kw, errors := [] },
    ?_, rfl, rfl, fun h => List.mem_append_right _ (hlow h),
    fun h => List.mem_append_right _ (hhigh h)⟩
  simp only [validateMetadata]
  rw [if_neg (by simp [mkMetadata, jsTruthy])]
  rw [htw, haw, hkw]
  rfl

/-- The preset of the spec's scenario: `{keywords_min: 15, keywords_max: 25}`. -/
def scenarioPreset : Preset := ⟨none, some 15, some 25⟩

/-- Six distinct keywords — fewer than the scenario preset's minimum. -/
def scenarioKeywords : List String :=
  ["sunset", "beach", "ocean", "waves", "sand", "sky"]

theorem claimC7_witness :
    ∃ out, validateMetadata (mkMetadata (.str "A sunset over the beach")
        (.str "Sunset beach") (scenarioKeywords.map JValue.str))
        (some scenarioPreset) = .ok out ∧
      out.errors = [] ∧ out.is_valid = true ∧
      tooFewMsg 6 15 ∈ out.warnings := by
  obtain ⟨out, heq, herr, hval, hlow, _⟩ :=
    claimC7_keyword_warnings "Sunset beach" "A sunset over the beach"
      scenarioKeywords (some scenarioPreset) (by decide)
  exact ⟨out, heq, herr, hval, hlow (by decide)⟩

/-- A preset whose keyword bounds are both `0`. -/
def zeroBoundsPreset : Preset := ⟨none, some 0, some 0⟩

/-- Twenty distinct keywords. -/
def twentyKeywords : List String := (List.range 20).map (fun i => "k" ++ toString i)

/-- C7 counterexample: under the preset `{keywords_min: 0, keywords_max: 0}`
a result with 20 keywords has its count outside the preset's range
`[0, 0]`, yet the outcome carries no warning at all: the source evaluates
`preset?.keywords_min || 15` and `preset?.keywords_max || 25`, so a zero
(falsy) preset bound is replaced by the default and the effective range is
`[15, 25]`, which contains 20. -/
theorem claimC7_counterexample :
    validateMetadata (mkMetadata (.str "Nice alt text") (.str "Nice title")
        (twentyKeywords.map JValue.str)) (some zeroBoundsPreset) =
      .ok ⟨true, [], []⟩ ∧
    (0 : Int) < 20 :=
  ⟨rfl, by decide⟩

/-! ## Claim C2 — output invariants of the validator/repairer -/

/-- C2 amended: for every input the returned keyword list contains no two
`SameValueZero`-equal entries (for string keywords: no case-sensitively
equal duplicates); the title is at most 70 characters whenever the input
passes strict validation — but the repair path performs no title
truncation, so repaired titles can exceed 70 characters. -/
theorem claimC2_invariants :
    (∀ p : JValue,
      (processResult p).keywords.Pairwise (fun a b => jsPrimEq a b = false)) ∧
    (∀ (p : JValue) (v : ValidatedResult), zodParse p = some v →
      (processResult p).title = .str (processTitle v.title) ∧
      (processTitle v.title).length ≤ 70) := by
  constructor
  · intro p
    rcases hz : zodParse p with _ | val
    · simp only [processResult, hz, repairProcess]
      refine List.Pairwise.sublist (List.take_sublist _ _) ?_
      split <;> split <;>
        first
          | exact pairwise_primEq_of_nodup fallbackKeywords (by decide)
          | exact jsSetDedup_pairwise _
    · simp only [processResult, hz, strictProcess]
      exact pairwise_primEq_of_nodup _
        ((setDedupStr_nodup val.keywords).sublist (List.take_sublist _ _))
  · intro p v h
    exact ⟨by simp [processResult, h, strictProcess], processTitle_length_le _⟩

/-- A malformed input handled by the repair path. -/
def malformedInput : JValue := .str "not an object"

/-- The spec's Markdown-fence scenario payload, valid under the strict
schema. -/
def redCarPayload : JValue :=
  .obj [("alt_text", .str "A red car on a street"),
        ("title", .str "Red car in urban setting"),
        ("keywords", .arr (["car", "red", "street", "urban", "vehicle",
          "transport"].map JValue.str))]

theorem claimC2_witness :
    (processResult malformedInput).keywords.Pairwise
      (fun a b => jsPrimEq a b = false) ∧
    ((processResult redCarPayload).title =
      .str (processTitle "Red car in urban setting") ∧
    (processTitle "Red car in urban setting").length ≤ 70) :=
  ⟨claimC2_invariants.1 malformedInput,
    claimC2_invariants.2 redCarPayload
      ⟨"A red car on a street", "Red car in urban setting",
        ["car", "red", "street", "urban", "vehicle", "transport"]⟩ rfl⟩

/-- A 100-character title. -/
def longTitle : String := String.mk (List.replicate 100 'a')

/-- A payload whose `alt_text` fails strict validation (1 character) while
its title is 100 characters long: the repair path keeps the title as is. -/
def overlongTitleInput : JValue :=
  .obj [("alt_text", .str "x"), ("title", .str longTitle),
        ("keywords", .arr (["k1", "k2", "k3", "k4", "k5"].map JValue.str))]

/-- C2 counterexample: on this input `processResult` takes the repair path
and returns a 100-character title, so the claimed invariant
"title length ≤ 70 for every returned result" is false. -/
theorem claimC2_counterexample :
    strLenOf (processResult overlongTitleInput).title = 100 ∧
    ¬ strLenOf (processResult overlongTitleInput).title ≤ 70 :=
  ⟨rfl, by decide⟩

/-! ## Claim C3 — idempotence of the validator -/

/-- C3 amended: for schema-valid payloads, `processResult` is idempotent
provided its processed output still satisfies the schema minima — that is,
the de-duplicated keyword list still has at least 5 entries and the
processed (possibly truncated and trimmed) title still has at least 5
characters.  Without those provisos idempotence fails (see the
counterexample). -/
theorem claimC3_idempotent (p : JValue) (v : ValidatedResult)
    (h : zodParse p = some v)
    (hK : 5 ≤ (setDedupStr v.keywords).length)
    (hT : 5 ≤ (processTitle v.title).length) :
    processResult (toJValue (processResult p)) = processResult p := by
  have hb := zodParse_bounds h
  have h1 : processResult p = strictProcess v := by
    simp [processResult, h]
  rw [h1]
  have h2 := zodParse_toJValue_strict v hb.1 hb.2.1 hT hK
  have h3 : processResult (toJValue (strictProcess v)) =
      strictProcess ⟨v.alt_text, processTitle v.title,
        (setDedupStr v.keywords).take 25⟩ := by
    simp [processResult, h2]
  rw [h3]
  have htitle : processTitle (processTitle v.title) = processTitle v.title :=
    processTitle_eq_self _ (processTitle_length_le _)
  have hnodup : ((setDedupStr v.keywords).take 25).Nodup :=
    (setDedupStr_nodup v.keywords).sublist (List.take_sublist _ _)
  have hdedup : setDedupStr ((setDedupStr v.keywords).take 25) =
      (setDedupStr v.keywords).take 25 := setDedupStr_eq_self _ hnodup
  have hlen : ((setDedupStr v.keywords).take 25).length ≤ 25 := by
    rw [List.length_take]
    omega
  have htake : ((setDedupStr v.keywords).take 25).take 25 =
      (setDedupStr v.keywords).take 25 := List.take_of_length_le hlen
  simp [strictProcess, htitle, hdedup, htake]

/-- A schema-valid payload whose five keywords are all equal. -/
def fiveDupKeywordsPayload : JValue :=
  .obj [("alt_text", .str "valid alt"), ("title", .str "Valid title"),
        ("keywords", .arr (List.replicate 5 (JValue.str "forest")))]

/-- C3 counterexample: this payload satisfies the strict schema (its
keyword array has 5 string entries), but processing collapses the
duplicates to a single keyword, so re-processing the output takes the
repair path and pads the list back up — the two results differ, refuting
idempotence for schema-valid payloads in general. -/
theorem claimC3_counterexample :
    (processResult fiveDupKeywordsPayload).keywords.length = 1 ∧
    (processResult (toJValue (processResult fiveDupKeywordsPayload))).keywords.length = 6 ∧
    processResult (toJValue (processResult fiveDupKeywordsPayload)) ≠
      processResult fiveDupKeywordsPayload := by
  refine ⟨rfl, rfl, fun hcontra => ?_⟩
  exact absurd (congrArg (fun r => r.keywords.length) hcontra) (by decide)

/-- A schema-valid payload with distinct keywords and a short title. -/
def wellFormedPayload : JValue :=
  .obj [("alt_text", .str "A calm lake at dawn"),
        ("title", .str "Lake at dawn"),
        ("keywords", .arr (["lake", "dawn", "calm", "water", "mist",
          "reflection"].map JValue.str))]

theorem claimC3_witness :
    processResult (toJValue (processResult wellFormedPayload)) =
      processResult wellFormedPayload :=
  claimC3_idempotent wellFormedPayload
    ⟨"A calm lake at dawn", "Lake at dawn",
      ["lake", "dawn", "calm", "water", "mist", "reflection"]⟩
    rfl (by decide) (by decide)

/-! ## Claim C8 — repair of `{title: "Hi", keywords: ["a","b"]}` -/

/-- The spec's repair-path scenario input. -/
def repairScenarioInput : JValue :=
  .obj [("title", .str "Hi"), ("keywords", .arr [.str "a", .str "b"])]

/-- C8: the input fails strict validation on all three fields, and the
repaired result has `alt_text` and `title` that are strings of at least 5
characters and a keyword list with at least 5 entries.  (Concretely the
repair yields alt text `Professional image`, title `High-quality Hi` and 7
keywords.) -/
theorem claimC8_repair_minimums :
    zodParse repairScenarioInput = none ∧
    isStrWithMinLen (processResult repairScenarioInput).alt_text 5 = true ∧
    isStrWithMinLen (processResult repairScenarioInput).title 5 = true ∧
    5 ≤ (processResult repairScenarioInput).keywords.length := by
  refine ⟨rfl, rfl, rfl, by decide⟩

/-! ## Claim C9 — de-duplication of keyword lists with duplicates -/

/-- C9 amended: for every schema-valid payload whose keyword list contains
duplicates, the processed keyword list is the first-seen de-duplication of
the input truncated to its first 25 entries: it has no duplicates, it is a
subsequence of the input (hence in first-occurrence order), it has at most
25 entries, and whenever the input has at most 25 distinct keywords it
contains every distinct keyword of the input exactly once.  (With more than
25 distinct keywords the tail of the de-duplicated list is dropped — see
the counterexample.) -/
theorem claimC9_dedup (p : JValue) (v : ValidatedResult)
    (h : zodParse p = some v) (_hdup : ¬ v.keywords.Nodup) :
    (processResult p).keywords =
      ((setDedupStr v.keywords).take 25).map JValue.str ∧
    ((setDedupStr v.keywords).take 25).Nodup ∧
    ((setDedupStr v.keywords).take 25).Sublist v.keywords ∧
    (processResult p).keywords.length ≤ 25 ∧
    ((setDedupStr v.keywords).length ≤ 25 → ∀ k ∈ v.keywords,
      k ∈ (setDedupStr v.keywords).take 25) := by
  have h1 : (processResult p).keywords =
      ((setDedupStr v.keywords).take 25).map JValue.str := by
    simp [processResult, h, strictProcess]
  refine ⟨h1, (setDedupStr_nodup _).sublist (List.take_sublist _ _),
    (List.take_sublist _ _).trans (setDedupStr_sublist _), ?_, ?_⟩
  · rw [h1, List.length_map, List.length_take]
    omega
  · intro hle k hk
    rw [List.take_of_length_le hle]
    exact mem_setDedupStr _ _ hk

/-- Six keywords, one of them repeated. -/
def dupScenarioKeywords : List String :=
  ["alpha", "beta", "alpha", "gamma", "delta", "epsilon"]

/-- A schema-valid payload with a duplicated keyword. -/
def dupScenarioPayload : JValue :=
  .obj [("alt_text", .str "A studio photograph"),
        ("title", .str "Studio photograph"),
        ("keywords", .arr (dupScenarioKeywords.map JValue.str))]

theorem claimC9_witness :
    (processResult dupScenarioPayload).keywords =
      ((setDedupStr dupScenarioKeywords).take 25).map JValue.str ∧
    ((setDedupStr dupScenarioKeywords).take 25).Nodup ∧
    ((setDedupStr dupScenarioKeywords).take 25).Sublist dupScenarioKeywords ∧
    (processResult dupScenarioPayload).keywords.length ≤ 25 ∧
    ((setDedupStr dupScenarioKeywords).length ≤ 25 → ∀ k ∈ dupScenarioKeywords,
      k ∈ (setDedupStr dupScenarioKeywords).take 25) :=
  claimC9_dedup dupScenarioPayload
    ⟨"A studio photograph", "Studio photograph", dupScenarioKeywords⟩
    rfl (by decide)

/-- Twenty-six distinct keywords followed by a duplicate of the first. -/
def manyKeywords : List String :=
  (List.range 26).map (fun i => "k" ++ toString i) ++ ["k0"]

/-- A schema-valid payload (27 keyword entries, 26 of them distinct) with a
duplicate. -/
def manyKeywordsPayload : JValue :=
  .obj [("alt_text", .str "Valid alt text"), ("title", .str "Valid title"),
        ("keywords", .arr (manyKeywords.map JValue.str))]

/-- C9 counterexample: the input's distinct keyword `k25` is dropped by the
truncation to 25 entries, so the processed list does not contain every
distinct keyword of the input. -/
theorem claimC9_counterexample :
    "k25" ∈ manyKeywords ∧
    (processResult manyKeywordsPayload).keywords.length = 25 ∧
    some "k25" ∉ (processResult manyKeywordsPayload).keywords.map strOf := by
  refine ⟨by decide, rfl, by decide⟩

/-! ## Claim C10 — totality of the validator/repairer -/

theorem setDedupStr_length_pos (l : List String) (h : 0 < l.length) :
    0 < (setDedupStr l).length := by
  cases l with
  | nil => simp at h
  | cons x rest =>
    rw [setDedupStr]
    simp

theorem keywords_fallback_ge (l : List JValue) :
    5 ≤ (if l.length < 5 then fallbackKeywords.map JValue.str else l).length := by
  split
  · decide
  · omega

/-- The repair path always returns between 5 and 25 keywords. -/
theorem repair_keywords_bounds (r : JValue) :
    5 ≤ (repairProcess r).keywords.length ∧
    (repairProcess r).keywords.length ≤ 25 := by
  simp only [repairProcess, List.length_take]
  exact ⟨Nat.le_min.mpr ⟨by norm_num, keywords_fallback_ge _⟩,
    Nat.min_le_left _ _⟩

/-- C10: `processResult` is a total function of an arbitrary JSON value —
every strict-validation failure is caught and handled by the repair path,
so every input (null, non-objects, objects with missing or wrongly-typed
fields) yields an `AnalysisResult`: either the strict post-processing of a
successful parse or the repaired value, always carrying between 1 and 25
keywords. -/
theorem claimC10_total (v : JValue) :
    ((∃ val, zodParse v = some val ∧ processResult v = strictProcess val) ∨
      (zodParse v = none ∧ processResult v = repairProcess v)) ∧
    1 ≤ (processResult v).keywords.length ∧
    (processResult v).keywords.length ≤ 25 := by
  rcases hz : zodParse v with _ | val
  · have heq : processResult v = repairProcess v := by
      simp [processResult, hz]
    have hb := repair_keywords_bounds v
    exact ⟨Or.inr ⟨rfl, heq⟩, by rw [heq]; omega, by rw [heq]; omega⟩
  · have heq : processResult v = strictProcess val := by
      simp [processResult, hz]
    have hb := zodParse_bounds hz
    have hpos := setDedupStr_length_pos val.keywords (by omega)
    refine ⟨Or.inl ⟨val, rfl, heq⟩, ?_, ?_⟩ <;>
      · rw [heq]
        simp only [strictProcess, List.length_map, List.length_take]
        omega
